import Mathlib

/-!
Verification model of the gevent-pipeline repository
(`gevent_pipeline/closablequeue.py` and `gevent_pipeline/pipeline.py`).

The queue model is a shallow embedding of `ClosableQueue`, a subclass of
`gevent.queue.Queue`.  A queue state carries the buffered items (`queue`,
matching the attribute name of `gevent.queue.Queue`), the normalized
`maxsize`, the `_closed` flag, the FIFO of items held by greenlets blocked
inside `put` (gevent's `putters` waiter list), and the number of greenlets
blocked inside `get` (gevent's `getters` waiter list).  Operations are
modelled as pure state transformers executed by a single driving greenlet;
the side effects on *other* (blocked) greenlets performed by gevent's
`_unlock` hub callback are reported in an `Effect` record: which blocked
`put` calls completed (their items entered the buffer) and which values
were handed to blocked getters.
-/

/-- Python values that flow through the queues in this development.
`stopIteration` models the `StopIteration` class object that
`ClosableQueue` uses as its end-of-stream marker, and `none` models
Python's `None` (the value dropped by `worker(discard_none=True)`). -/
inductive PyVal where
  | int : Int → PyVal
  | none : PyVal
  | stopIteration : PyVal
deriving DecidableEq, BEq, Repr

/-- State of a `ClosableQueue` (fields follow `gevent.queue.Queue`:
`queue` is the buffer, `putters`/`getters` the waiter sets, plus the
`_closed` flag added by `ClosableQueue`). -/
structure ClosableQueue where
  maxsize : Option Nat
  queue : List PyVal
  closed : Bool
  putters : List PyVal
  getters : Nat
deriving DecidableEq, Repr

/-- Result of one queue operation: the new state plus what happened to
previously blocked greenlets during the call (gevent `_unlock`):
`completedPuts` lists items of blocked `put` calls that completed
successfully (entered the buffer), `wokenGets` lists values delivered to
previously blocked getters. -/
structure Effect where
  state : ClosableQueue
  completedPuts : List PyVal
  wokenGets : List PyVal
deriving DecidableEq, Repr

def noEffect (s : ClosableQueue) : Effect := ⟨s, [], []⟩

/-- gevent `Queue._put` guard: `self.maxsize is None or self.qsize() < self.maxsize`. -/
def hasSpace (s : ClosableQueue) : Bool :=
  match s.maxsize with
  | Option.none => true
  | some m => decide (s.queue.length < m)

/-- gevent `Queue._unlock` loop: while progress is possible, admit the
oldest blocked putter's item into the buffer when a slot is free, and hand
the buffer head to the oldest blocked getter when the buffer is non-empty.
`fuel` bounds the iterations; `runUnlock` supplies enough fuel for every
waiter to be served. -/
def unlock : Nat → ClosableQueue → Effect
  | 0, s => noEffect s
  | Nat.succ fuel, s =>
    match s.putters, hasSpace s with
    | x :: rest, true =>
      let e := unlock fuel { s with queue := s.queue ++ [x], putters := rest }
      { e with completedPuts := x :: e.completedPuts }
    | _, _ =>
      match s.queue, s.getters with
      | y :: ys, Nat.succ g =>
        let e := unlock fuel { s with queue := ys, getters := g }
        { e with wokenGets := y :: e.wokenGets }
      | _, _ => noEffect s

def runUnlock (s : ClosableQueue) : Effect :=
  unlock (s.putters.length + s.getters) s

/-- Outcome of a `put` call by the driving greenlet. -/
inductive PutOutcome where
  | ok
  | blocked
  | raised (msg : String)
deriving DecidableEq, Repr

/-- Outcome of a `get` call by the driving greenlet. -/
inductive GetOutcome where
  | ret (v : PyVal)
  | blocked
deriving DecidableEq, Repr

/-- Outcome of a `close` call. -/
inductive CloseOutcome where
  | ok
  | raised (msg : String)
deriving DecidableEq, Repr

/-- gevent `Queue.put` with `block=True`: if a slot is free the item is
appended to the buffer and waiting getters are served (`_schedule_unlock`);
otherwise the caller is suspended on the `putters` list. -/
def geventPut (s : ClosableQueue) (item : PyVal) : Effect × PutOutcome :=
  if hasSpace s then
    let s1 := { s with queue := s.queue ++ [item] }
    if 0 < s1.getters then (runUnlock s1, PutOutcome.ok)
    else (noEffect s1, PutOutcome.ok)
  else (noEffect { s with putters := s.putters ++ [item] }, PutOutcome.blocked)

/-- gevent `Queue.get` with `block=True`: non-empty buffer pops the head
(then `_schedule_unlock` admits a blocked putter, if any); empty buffer
suspends the caller on the `getters` list. -/
def geventGet (s : ClosableQueue) : Effect × GetOutcome :=
  match s.queue with
  | x :: rest =>
    let s1 := { s with queue := rest }
    if s1.putters.isEmpty then (noEffect s1, GetOutcome.ret x)
    else (runUnlock s1, GetOutcome.ret x)
  | [] => (noEffect { s with getters := s.getters + 1 }, GetOutcome.blocked)

/-- gevent `Queue.get` with `block=False`: non-empty buffer pops the head
(then `_schedule_unlock`); empty buffer raises `Empty` (modelled as
`Option.none`). -/
def geventGetNowait (s : ClosableQueue) : Effect × Option PyVal :=
  match s.queue with
  | x :: rest =>
    let s1 := { s with queue := rest }
    if s1.putters.isEmpty then (noEffect s1, some x)
    else (runUnlock s1, some x)
  | [] => (noEffect s, Option.none)

/-- `gevent.queue.Queue.__init__` maxsize normalization, per the gevent
API documentation: "If maxsize is None or less than or equal to zero, the
queue size is infinite" (`Queue(0)` is deprecated and treated as
`Queue(None)`). -/
def mkQueueMaxsize (maxsize : Option Int) : Option Nat :=
  match maxsize with
  | Option.none => Option.none
  | some m => if m ≤ 0 then Option.none else some m.toNat

/-- `ClosableQueue.__init__`: forwards `maxsize` to `gevent.queue.Queue`;
starts open and empty (class attribute `_closed = False`). -/
def mkClosableQueue (maxsize : Option Int) : ClosableQueue :=
  { maxsize := mkQueueMaxsize maxsize
    queue := []
    closed := false
    putters := []
    getters := 0 }

/-- `ClosableQueue.put` (blocking): raises `RuntimeError` when the queue
is closed, otherwise delegates to `gevent.queue.Queue.put`. -/
def ClosableQueue.put (s : ClosableQueue) (item : PyVal) : Effect × PutOutcome :=
  if s.closed then (noEffect s, PutOutcome.raised "Cannot put to a closed queue")
  else geventPut s item

/-- `ClosableQueue.get` (blocking): while open, delegates to the blocking
`gevent.queue.Queue.get`; once closed, does a non-blocking `super().get`
and turns `Empty` into the `StopIteration` marker. -/
def ClosableQueue.get (s : ClosableQueue) : Effect × GetOutcome :=
  if s.closed then
    match geventGetNowait s with
    | (e, some x) => (e, GetOutcome.ret x)
    | (e, Option.none) => (e, GetOutcome.ret PyVal.stopIteration)
  else geventGet s

/-- The loop in `ClosableQueue.close`:
`for _ in range(len(self.getters)): super().put(StopIteration)` —
one `StopIteration` per getter that was blocked when `close` ran. -/
def closeLoop : Nat → ClosableQueue → Effect
  | 0, s => noEffect s
  | Nat.succ n, s =>
    let e := (geventPut s PyVal.stopIteration).1
    let e2 := closeLoop n e.state
    { state := e2.state
      completedPuts := e.completedPuts ++ e2.completedPuts
      wokenGets := e.wokenGets ++ e2.wokenGets }

/-- `ClosableQueue.close(once)`: raises `RuntimeError` when closing a
closed queue with `once=True`; otherwise sets `_closed` and unsticks every
currently blocked getter with a `StopIteration`. -/
def ClosableQueue.close (s : ClosableQueue) (once : Bool) : Effect × CloseOutcome :=
  if once && s.closed then
    (noEffect s, CloseOutcome.raised "Tried closing already closed queue")
  else
    let s1 := { s with closed := true }
    (closeLoop s1.getters s1, CloseOutcome.ok)

/-- Sequence of blocking `ClosableQueue.put` calls by the driving
greenlet; returns the final state and the outcome of each call. -/
def putAll : ClosableQueue → List PyVal → ClosableQueue × List PutOutcome
  | s, [] => (s, [])
  | s, x :: xs =>
    let r := ClosableQueue.put s x
    let rest := putAll r.1.state xs
    (rest.1, r.2 :: rest.2)

/-- Sequence of `n` blocking `ClosableQueue.get` calls by the driving
greenlet; returns the outcomes in order and the final state. -/
def getN : ClosableQueue → Nat → List GetOutcome × ClosableQueue
  | s, 0 => ([], s)
  | s, Nat.succ n =>
    let r := ClosableQueue.get s
    let rest := getN r.1.state n
    (r.2 :: rest.1, rest.2)

/-! ### Worker wrapper and stage workers (`pipeline.py`) -/

/-- The exception handlers enumerated in `pipeline.py`:
`raise_` re-raises, `ignore` discards, `forward_input` puts the original
input to `q_out` and continues. -/
inductive ExcHandler where
  | raise_
  | ignore
  | forward_input
deriving DecidableEq, Repr

/-- Observable result of running a stage worker body: the items it put to
`q_out`, the number of signals it put to `q_done`, and the exception that
escaped it, if any. -/
structure WorkerRun where
  outputs : List PyVal
  doneSignals : Nat
  error : Option String
deriving DecidableEq, Repr

/-- `filterer(condition, q_in, q_out, q_done)`: forwards the items
satisfying `condition`, then signals done once — but the loop is not
wrapped in try/finally, so an exception raised by `condition` escapes
before `q_done.put(None)` runs.  `q_in` is modelled as the list of items
this worker consumes before `StopIteration`; a raising `condition` is an
`Except.error`. -/
def filterer (condition : PyVal → Except String Bool) : List PyVal → WorkerRun
  | [] => { outputs := [], doneSignals := 1, error := Option.none }
  | x :: xs =>
    match condition x with
    | Except.error e => { outputs := [], doneSignals := 0, error := some e }
    | Except.ok b =>
      let r := filterer condition xs
      { r with outputs := if b then x :: r.outputs else r.outputs }

/-- `inner(f, q_in, q_out)` of the `worker` decorator (modelled here as
`worker_inner` to avoid clashing with Mathlib's `inner`), for a non-None
`q_out`: feeds each input to `f`; on exception the configured handler runs
(`raise_` re-raises so `worker_inner` aborts; `ignore` continues; `forward_input`
puts the input to `q_out` and continues); a successful result equal to
`None` is skipped when `discard_none` is set; every other result is put to
`q_out`.  Returns the `q_out` items and the escaping exception, if any. -/
def worker_inner (handler : ExcHandler) (discard_none : Bool)
    (f : PyVal → Except String PyVal) : List PyVal → List PyVal × Option String
  | [] => ([], Option.none)
  | x :: xs =>
    match f x with
    | Except.error e =>
      match handler with
      | ExcHandler.raise_ => ([], some e)
      | ExcHandler.ignore => worker_inner handler discard_none f xs
      | ExcHandler.forward_input =>
        let r := worker_inner handler discard_none f xs
        (x :: r.1, r.2)
    | Except.ok out =>
      if discard_none = true ∧ out = PyVal.none then worker_inner handler discard_none f xs
      else
        let r := worker_inner handler discard_none f xs
        (out :: r.1, r.2)

/-- `outer(q_in, q_out, q_done)` of the `worker` decorator (modelled as
`worker_outer`): runs `worker_inner`
inside `try/finally`, so exactly one done signal is put whether `worker_inner`
returns or raises. -/
def worker_outer (handler : ExcHandler) (discard_none : Bool)
    (f : PyVal → Except String PyVal) (q_in : List PyVal) : WorkerRun :=
  let r := worker_inner handler discard_none f q_in
  { outputs := r.1, doneSignals := 1, error := r.2 }

/-! ### `Pipeline.fold` (`pipeline.py`) -/

/-- The reducer `g(q_in, q_out, q_done)` inside `Pipeline.fold`, viewed
through the items its worker consumes from `q_in`: a worker whose first
`get` is `StopIteration` emits nothing; otherwise it left-folds `f` over
its items and emits the single partial result. -/
def foldG {α : Type} (f : α → α → α) : List α → List α
  | [] => []
  | x :: xs => [List.foldl f x xs]

/-- `Pipeline.fold(f, x0, n_workers)`: the interim queue is pre-seeded
with `x0`; the main stage appends each worker's `foldG` output, observed
in some arrival order; the final single-worker stage runs `g` over the
closed interim queue (`x0` first, in FIFO order), and `q_out` receives
exactly `foldG`'s output — `fold` returns its sole element after checking
that the next `get` is `StopIteration`. -/
def foldModel {α : Type} (f : α → α → α) (x0 : α) (arrival : List α) : List α :=
  foldG f (x0 :: arrival)

/-! ### `Pipeline` builder and iteration (`pipeline.py`) -/

/-- `Pipeline` state relevant to the builder contract: the current tail
output queue `q_out_prev` (None for a fresh `Pipeline()` or after the
iterator body has started). -/
structure Pipeline where
  q_out_prev : Option ClosableQueue
deriving DecidableEq, Repr

/-- `iter(p)`: `Pipeline.__iter__` contains `yield`, hence is a generator
function — obtaining the iterator builds the generator object without
executing any of the body, so the pipeline state is untouched. -/
def Pipeline.iterObtain (p : Pipeline) : Pipeline := p

/-- First advance of the generator returned by `Pipeline.__iter__`: the
body reads `q_out_prev`, clears it, raises `RuntimeError` when it was
None, and otherwise starts yielding from the captured queue (returned
here). -/
def Pipeline.iterFirstAdvance (p : Pipeline) :
    Pipeline × Except String (Option ClosableQueue) :=
  match p.q_out_prev with
  | Option.none =>
    ({ q_out_prev := Option.none },
     Except.error "Tried iterating over output, but the last output queue is None")
  | some q => ({ q_out_prev := Option.none }, Except.ok (some q))

/-- `Pipeline.chain_workers(f, n_workers, q_out, maxsize)`: validates the
`q_out`/`maxsize` combination, creates the stage output queue (capacity
`maxsize`, default `2 * n_workers`) when `q_out` is unset, and replaces
the tail.  The returned triple also records the `q_in` handed to the
spawned workers (the tail at call time, possibly None) and the stage
output queue.  The call never inspects whether the tail is None. -/
def Pipeline.chain_workers (p : Pipeline) (n_workers : Nat)
    (q_out : Option ClosableQueue) (maxsize : Option Int) :
    Except String (Pipeline × Option ClosableQueue × ClosableQueue) :=
  match q_out with
  | some q =>
    match maxsize with
    | some _ => Except.error "`maxsize` cannot be set together with `q_out`"
    | Option.none => Except.ok ({ q_out_prev := some q }, p.q_out_prev, q)
  | Option.none =>
    let ms : Int :=
      match maxsize with
      | some m => m
      | Option.none => 2 * n_workers
    let q := mkClosableQueue (some ms)
    Except.ok ({ q_out_prev := some q }, p.q_out_prev, q)

/-! ### Concrete trace used by the C1 counterexample: capacity-1 queue,
`put(1)` (buffered), `put(2)` (suspended), `close()`, then three gets. -/

def c1s0 : ClosableQueue := mkClosableQueue (some 1)

def c1r1 : Effect × PutOutcome := ClosableQueue.put c1s0 (PyVal.int 1)

def c1r2 : Effect × PutOutcome := ClosableQueue.put c1r1.1.state (PyVal.int 2)

def c1r3 : Effect × CloseOutcome := ClosableQueue.close c1r2.1.state true

def c1r4 : Effect × GetOutcome := ClosableQueue.get c1r3.1.state

def c1r5 : Effect × GetOutcome := ClosableQueue.get c1r4.1.state

def c1r6 : Effect × GetOutcome := ClosableQueue.get c1r5.1.state

/-! ### Helper lemmas -/

theorem unlock_no_getters (fuel : Nat) : ∀ (s : ClosableQueue),
    s.getters = 0 → s.putters.length ≤ fuel →
    (unlock fuel s).state.queue ++ (unlock fuel s).state.putters = s.queue ++ s.putters
    ∧ (unlock fuel s).state.getters = 0
    ∧ (unlock fuel s).state.closed = s.closed
    ∧ (unlock fuel s).state.maxsize = s.maxsize
    ∧ ((unlock fuel s).state.putters ≠ [] → hasSpace (unlock fuel s).state = false) := by
  induction fuel with
  | zero =>
    intro s hg hlen
    have hp : s.putters = [] := List.eq_nil_of_length_eq_zero (Nat.le_zero.mp hlen)
    simp [unlock, noEffect, hp, hg]
  | succ fuel ih =>
    intro s hg hlen
    cases hp : s.putters with
    | nil =>
      cases hq : s.queue with
      | nil => simp [unlock, noEffect, hp, hq, hg]
      | cons y ys => simp [unlock, noEffect, hp, hq, hg]
    | cons x rest =>
      cases hs : hasSpace s with
      | false =>
        cases hq : s.queue with
        | nil => simp [unlock, noEffect, hp, hq, hg, hs]
        | cons y ys => simp [unlock, noEffect, hp, hq, hg, hs]
      | true =>
        have hlen' : rest.length ≤ fuel := by
          rw [hp] at hlen
          exact Nat.succ_le_succ_iff.mp hlen
        have h2 := ih { s with queue := s.queue ++ [x], putters := rest } hg hlen'
        simp only [unlock, hp, hs]
        simp only [List.append_assoc, List.singleton_append] at h2
        simpa using h2

theorem runUnlock_no_getters (s : ClosableQueue) (hg : s.getters = 0) :
    (runUnlock s).state.queue ++ (runUnlock s).state.putters = s.queue ++ s.putters
    ∧ (runUnlock s).state.getters = 0
    ∧ (runUnlock s).state.closed = s.closed
    ∧ (runUnlock s).state.maxsize = s.maxsize
    ∧ ((runUnlock s).state.putters ≠ [] → hasSpace (runUnlock s).state = false) := by
  have := unlock_no_getters (s.putters.length + s.getters) s hg (by omega)
  simpa [runUnlock] using this

theorem getN_closed_nil (k : Nat) : ∀ (s : ClosableQueue),
    s.closed = true → s.queue = [] →
    getN s k = (List.replicate k (GetOutcome.ret PyVal.stopIteration), s) := by
  induction k with
  | zero => intro s hc hq; rfl
  | succ k ih =>
    intro s hc hq
    have hget : ClosableQueue.get s = (noEffect s, GetOutcome.ret PyVal.stopIteration) := by
      simp [ClosableQueue.get, geventGetNowait, hc, hq]
    simp [getN, hget, noEffect, ih s hc hq, List.replicate]

theorem drain_closed (n : Nat) : ∀ (s : ClosableQueue),
    s.closed = true → s.getters = 0 →
    (s.putters ≠ [] → hasSpace s = false) →
    (∀ m, s.maxsize = some m → 0 < m) →
    s.queue.length + s.putters.length = n →
    ∀ k, (getN s (n + k)).1
      = (s.queue ++ s.putters).map GetOutcome.ret
        ++ List.replicate k (GetOutcome.ret PyVal.stopIteration) := by
  induction n with
  | zero =>
    intro s hc hg hfull hms hn k
    have hq : s.queue = [] := by
      cases h : s.queue with
      | nil => rfl
      | cons a l => rw [h] at hn; simp at hn
    have hp : s.putters = [] := by
      cases h : s.putters with
      | nil => rfl
      | cons a l => rw [h] at hn; simp at hn
    rw [getN_closed_nil (0 + k) s hc hq]
    simp [hq, hp]
  | succ n ih =>
    intro s hc hg hfull hms hn k
    cases hq : s.queue with
    | nil =>
      have hp : s.putters ≠ [] := by
        intro h; rw [hq, h] at hn; simp at hn
      have hsp := hfull hp
      rw [hasSpace] at hsp
      cases hmx : s.maxsize with
      | none => rw [hmx] at hsp; simp at hsp
      | some m =>
        rw [hmx] at hsp
        simp [hq] at hsp
        exact absurd (hms m hmx) (by omega)
    | cons x rest =>
      have hsucc : Nat.succ n + k = Nat.succ (n + k) := by omega
      rw [hsucc]
      by_cases hp : s.putters = []
      · have hget : ClosableQueue.get s
            = (noEffect { s with queue := rest }, GetOutcome.ret x) := by
          simp [ClosableQueue.get, geventGetNowait, hc, hq, hp]
        have hlen : rest.length + s.putters.length = n := by
          rw [hq] at hn; simp at hn; omega
        have ihs := ih { s with queue := rest } hc hg (by simp [hp])
          (by simpa using hms) (by simpa using hlen) k
        simp only [getN, hget, noEffect]
        simp only [hq, hp] at *
        simp [ihs]
      · have hget : ClosableQueue.get s
            = (runUnlock { s with queue := rest }, GetOutcome.ret x) := by
          have : ({ s with queue := rest } : ClosableQueue).putters.isEmpty = false := by
            simp [List.isEmpty_iff, hp]
          simp [ClosableQueue.get, geventGetNowait, hc, hq, this]
        have hu := runUnlock_no_getters { s with queue := rest } (by simpa using hg)
        set e := runUnlock { s with queue := rest } with he
        have hconcat : e.state.queue ++ e.state.putters = rest ++ s.putters := hu.1
        have hlen : e.state.queue.length + e.state.putters.length = n := by
          have := congrArg List.length hconcat
          simp at this
          rw [hq] at hn; simp at hn
          omega
        have ihs := ih e.state (by rw [hu.2.2.1]; exact hc) hu.2.1 hu.2.2.2.2
          (by rw [hu.2.2.2.1]; simpa using hms) hlen k
        simp only [getN, hget]
        simp [ihs, hconcat, hq]

theorem mkQueueMaxsize_pos (ms : Option Int) (m : Nat) :
    mkQueueMaxsize ms = some m → 0 < m := by
  cases ms with
  | none => simp [mkQueueMaxsize]
  | some v =>
    simp only [mkQueueMaxsize]
    by_cases h : v ≤ 0
    · simp [h]
    · intro hh
      simp [h] at hh
      omega

theorem putAll_ok (l : List PyVal) : ∀ (s : ClosableQueue), s.getters = 0 →
    (∀ o ∈ (putAll s l).2, o = PutOutcome.ok) →
    (putAll s l).1 = { s with queue := s.queue ++ l } := by
  induction l with
  | nil => intro s hg hok; simp [putAll]
  | cons x xs ih =>
    intro s hg hok
    have hmem : (ClosableQueue.put s x).2 ∈ (putAll s (x :: xs)).2 := by
      simp [putAll]
    have hok0 := hok _ hmem
    have hc : s.closed = false := by
      by_contra h
      rw [Bool.not_eq_false] at h
      simp [ClosableQueue.put, h] at hok0
    have hs : hasSpace s = true := by
      by_contra h
      rw [Bool.not_eq_true] at h
      simp [ClosableQueue.put, geventPut, hc, h] at hok0
    have hput : ClosableQueue.put s x
        = (noEffect { s with queue := s.queue ++ [x] }, PutOutcome.ok) := by
      simp [ClosableQueue.put, geventPut, hc, hs, hg]
    have htail : ∀ o ∈ (putAll { s with queue := s.queue ++ [x] } xs).2, o = PutOutcome.ok := by
      intro o ho
      apply hok
      simp [putAll, hput, noEffect]
      right; exact ho
    have ihs := ih { s with queue := s.queue ++ [x] } (by simpa using hg) htail
    simp [putAll, hput, noEffect, ihs]

theorem putAll_unbounded (l : List PyVal) : ∀ (s : ClosableQueue),
    s.getters = 0 → s.closed = false → s.maxsize = Option.none →
    putAll s l = ({ s with queue := s.queue ++ l }, List.replicate l.length PutOutcome.ok) := by
  induction l with
  | nil => intro s hg hc hm; simp [putAll]
  | cons x xs ih =>
    intro s hg hc hm
    have hput : ClosableQueue.put s x
        = (noEffect { s with queue := s.queue ++ [x] }, PutOutcome.ok) := by
      simp [ClosableQueue.put, geventPut, hasSpace, hc, hm, hg]
    have ihs := ih { s with queue := s.queue ++ [x] } (by simpa using hg)
      (by simpa using hc) (by simpa using hm)
    simp [putAll, hput, noEffect, ihs, List.replicate]

theorem close_no_getters (s : ClosableQueue) (hg : s.getters = 0) (hc : s.closed = false) :
    ClosableQueue.close s true = (noEffect { s with closed := true }, CloseOutcome.ok) := by
  simp [ClosableQueue.close, hc, hg, closeLoop]

theorem foldl_pull {α : Type} (f : α → α → α)
    (hassoc : ∀ a b c, f (f a b) c = f a (f b c)) :
    ∀ (xs : List α) (b x : α), f b (List.foldl f x xs) = List.foldl f (f b x) xs := by
  intro xs
  induction xs with
  | nil => intro b x; rfl
  | cons y ys ih =>
    intro b x
    simp only [List.foldl_cons]
    rw [ih, ← hassoc]

theorem foldl_perm {α : Type} (f : α → α → α)
    (hrc : ∀ b a1 a2, f (f b a1) a2 = f (f b a2) a1) :
    ∀ {l1 l2 : List α}, List.Perm l1 l2 → ∀ b, List.foldl f b l1 = List.foldl f b l2 := by
  intro l1 l2 hperm
  induction hperm with
  | nil => intro b; rfl
  | cons x h ih => intro b; simp only [List.foldl_cons]; exact ih _
  | swap x y l => intro b; simp only [List.foldl_cons]; rw [hrc]
  | trans h1 h2 ih1 ih2 => intro b; rw [ih1, ih2]

theorem foldl_flatten_foldG {α : Type} (f : α → α → α)
    (hassoc : ∀ a b c, f (f a b) c = f a (f b c)) :
    ∀ (parts : List (List α)) (b : α),
      List.foldl f b (List.map (foldG f) parts).flatten = List.foldl f b parts.flatten := by
  intro parts
  induction parts with
  | nil => intro b; rfl
  | cons p ps ih =>
    intro b
    cases p with
    | nil => simpa [foldG, List.flatten_cons] using ih b
    | cons x xs =>
      simp only [List.map_cons, List.flatten_cons, foldG, List.singleton_append,
        List.foldl_cons, List.cons_append, List.foldl_append]
      rw [foldl_pull f hassoc, ih]
      simp

/-! ### Claims -/

/-- C5: for every queue whose closed flag is true and every item `x`,
`put(x)` raises the closed-for-put `RuntimeError` and the state — in
particular the buffer — is unchanged by the failed call. -/
theorem C5_put_after_close_fails (s : ClosableQueue) (x : PyVal) (h : s.closed = true) :
    ClosableQueue.put s x = (noEffect s, PutOutcome.raised "Cannot put to a closed queue") := by
  simp [ClosableQueue.put, h]

/-- Witness for C5 at a concrete closed queue. -/
theorem C5_put_after_close_fails_witness :
    ClosableQueue.put ⟨Option.none, [PyVal.int 4], true, [], 0⟩ (PyVal.int 3)
      = (noEffect ⟨Option.none, [PyVal.int 4], true, [], 0⟩,
         PutOutcome.raised "Cannot put to a closed queue") :=
  C5_put_after_close_fails ⟨Option.none, [PyVal.int 4], true, [], 0⟩ (PyVal.int 3) rfl

/-- C2: with no concurrent consumer, every sequence of puts that all
complete successfully, followed by `close()`, is drained by `get` in FIFO
order, and every `get` after the drain returns the `StopIteration`
marker; in particular `put(1); put(2); close()` followed by four gets
returns `1, 2, EOS, EOS`. -/
theorem C2_fifo_then_eos (ms : Option Int) (l : List PyVal) (k : Nat)
    (hok : ∀ o ∈ (putAll (mkClosableQueue ms) l).2, o = PutOutcome.ok) :
    (getN ((ClosableQueue.close (putAll (mkClosableQueue ms) l).1 true).1.state)
        (l.length + k)).1
      = l.map GetOutcome.ret ++ List.replicate k (GetOutcome.ret PyVal.stopIteration)
    ∧ (getN ((ClosableQueue.close (putAll (mkClosableQueue Option.none)
          [PyVal.int 1, PyVal.int 2]).1 true).1.state) 4).1
      = [GetOutcome.ret (PyVal.int 1), GetOutcome.ret (PyVal.int 2),
         GetOutcome.ret PyVal.stopIteration, GetOutcome.ret PyVal.stopIteration] := by
  constructor
  · have hstate := putAll_ok l (mkClosableQueue ms) rfl hok
    have hstate2 : (putAll (mkClosableQueue ms) l).1
        = ⟨mkQueueMaxsize ms, l, false, [], 0⟩ := by
      rw [hstate]; simp [mkClosableQueue]
    rw [hstate2]
    have hclose := close_no_getters ⟨mkQueueMaxsize ms, l, false, [], 0⟩ rfl rfl
    rw [hclose]
    have hdrain := drain_closed l.length
      (⟨mkQueueMaxsize ms, l, true, [], 0⟩ : ClosableQueue)
      rfl rfl (by intro h; exact absurd rfl h)
      (fun m hm => mkQueueMaxsize_pos ms m hm) (by simp) k
    simpa [noEffect] using hdrain
  · decide

/-- Witness for C2 at `ms = None`, `l = [1, 2]`, `k = 2`. -/
theorem C2_fifo_then_eos_witness :
    (getN ((ClosableQueue.close (putAll (mkClosableQueue Option.none)
        [PyVal.int 1, PyVal.int 2]).1 true).1.state)
        ([PyVal.int 1, PyVal.int 2].length + 2)).1
      = [PyVal.int 1, PyVal.int 2].map GetOutcome.ret
        ++ List.replicate 2 (GetOutcome.ret PyVal.stopIteration) :=
  (C2_fifo_then_eos Option.none [PyVal.int 1, PyVal.int 2] 2 (by decide)).1

/-- C1 (amended): a put suspended on a full queue is not failed by
`close()`; once the queue is closed (with no blocked getters left), the
gets that follow deliver the buffered items and then the items of the
still-suspended puts, in FIFO order, before any `StopIteration` — each
suspended put completes successfully when capacity appears — while any
put *started* after close raises `RuntimeError` and leaves the state
unchanged.  (The side conditions say blocked putters only exist while the
buffer is full and that the capacity is a positive bound, as gevent's
constructor guarantees.) -/
theorem C1_blocked_puts_survive_close (s : ClosableQueue) (k : Nat)
    (hc : s.closed = true) (hg : s.getters = 0)
    (hfull : s.putters ≠ [] → hasSpace s = false)
    (hms : ∀ m, s.maxsize = some m → 0 < m) :
    (getN s (s.queue.length + s.putters.length + k)).1
      = (s.queue ++ s.putters).map GetOutcome.ret
        ++ List.replicate k (GetOutcome.ret PyVal.stopIteration)
    ∧ ∀ x, ClosableQueue.put s x
        = (noEffect s, PutOutcome.raised "Cannot put to a closed queue") := by
  constructor
  · exact drain_closed (s.queue.length + s.putters.length) s hc hg hfull hms rfl k
  · intro x
    simp [ClosableQueue.put, hc]

/-- Witness for C1 (amended) at the state reached in the counterexample
trace: buffer `[1]`, one put of `2` still suspended, closed. -/
theorem C1_blocked_puts_survive_close_witness :
    (getN ⟨some 1, [PyVal.int 1], true, [PyVal.int 2], 0⟩ (1 + 1 + 2)).1
      = ([PyVal.int 1] ++ [PyVal.int 2]).map GetOutcome.ret
        ++ List.replicate 2 (GetOutcome.ret PyVal.stopIteration)
    ∧ ClosableQueue.put ⟨some 1, [PyVal.int 1], true, [PyVal.int 2], 0⟩ (PyVal.int 9)
        = (noEffect ⟨some 1, [PyVal.int 1], true, [PyVal.int 2], 0⟩,
           PutOutcome.raised "Cannot put to a closed queue") := by
  have h := C1_blocked_puts_survive_close ⟨some 1, [PyVal.int 1], true, [PyVal.int 2], 0⟩ 2
    rfl rfl (fun _ => rfl) (fun m hm => by injection hm with h2; omega)
  exact ⟨h.1, h.2 (PyVal.int 9)⟩

/-- C1 counterexample: on a capacity-1 queue, `put(1)` succeeds, `put(2)`
suspends; `close()` completes with the put still suspended and not failed;
the first `get` returns `1` and completes the suspended put — its item `2`
enters the buffer *after* the closed flag is true — and the following gets
return `2` and then `StopIteration`.  So a put suspended at the moment
`close()` completes does not fail with the closed-for-put error, and its
item is enqueued after the queue is closed. -/
theorem C1_counterexample :
    c1r2.2 = PutOutcome.blocked
    ∧ c1r3.2 = CloseOutcome.ok
    ∧ c1r3.1.state.closed = true
    ∧ c1r3.1.state.putters = [PyVal.int 2]
    ∧ c1r4.2 = GetOutcome.ret (PyVal.int 1)
    ∧ c1r4.1.completedPuts = [PyVal.int 2]
    ∧ c1r4.1.state.closed = true
    ∧ c1r4.1.state.queue = [PyVal.int 2]
    ∧ c1r5.2 = GetOutcome.ret (PyVal.int 2)
    ∧ c1r6.2 = GetOutcome.ret PyVal.stopIteration := by
  decide

/-- C3 (amended): while the queue is open, `get` never returns the
`StopIteration` marker *provided* no user put enqueued `StopIteration`
itself: it either suspends (empty buffer) or returns a buffered item.
The proviso is necessary because the marker is the ordinary Python value
`StopIteration`, which `put` accepts (see the counterexample). -/
theorem C3_no_eos_while_open (s : ClosableQueue)
    (hc : s.closed = false) (hb : PyVal.stopIteration ∉ s.queue) :
    (ClosableQueue.get s).2 = GetOutcome.blocked
    ∨ ∃ x, (ClosableQueue.get s).2 = GetOutcome.ret x ∧ x ≠ PyVal.stopIteration := by
  cases hq : s.queue with
  | nil =>
    left
    simp [ClosableQueue.get, geventGet, hc, hq]
  | cons y ys =>
    right
    refine ⟨y, ?_, ?_⟩
    · by_cases hpe : (({ s with queue := ys } : ClosableQueue).putters.isEmpty = true) <;>
        simp [ClosableQueue.get, geventGet, hc, hq, hpe]
    · intro h
      subst h
      exact hb (by rw [hq]; exact List.mem_cons_self _ _)

/-- Witness for C3 (amended) at an open queue holding `[1]`. -/
theorem C3_no_eos_while_open_witness :
    (ClosableQueue.get ⟨Option.none, [PyVal.int 1], false, [], 0⟩).2 = GetOutcome.blocked
    ∨ ∃ x, (ClosableQueue.get ⟨Option.none, [PyVal.int 1], false, [], 0⟩).2 = GetOutcome.ret x
        ∧ x ≠ PyVal.stopIteration :=
  C3_no_eos_while_open ⟨Option.none, [PyVal.int 1], false, [], 0⟩ rfl (by simp)

/-- C3 counterexample: `put` accepts the `StopIteration` class object as
an ordinary item on an open queue (the repository's own tests do exactly
this), and the following `get` returns it while the queue was never
closed — so the EOS marker is a user-reachable value and a `get` result
equal to it does not imply the queue was closed and drained. -/
theorem C3_counterexample :
    (ClosableQueue.put (mkClosableQueue Option.none) PyVal.stopIteration).2 = PutOutcome.ok
    ∧ (ClosableQueue.put (mkClosableQueue Option.none) PyVal.stopIteration).1.state.closed = false
    ∧ (ClosableQueue.get
        (ClosableQueue.put (mkClosableQueue Option.none) PyVal.stopIteration).1.state).2
      = GetOutcome.ret PyVal.stopIteration := by
  decide

/-- C4 (amended): a queue created with capacity 0 is *unbounded*, not a
rendezvous queue — gevent normalizes `maxsize <= 0` to `None` — so every
blocking put completes immediately with no reader present and the items
sit buffered in the queue; capacity-0 queues are accepted as stage output
queues by `chain_workers(maxsize=0)`. -/
theorem C4_capacity_zero_unbounded (l : List PyVal) (n : Nat) :
    (mkClosableQueue (some 0)).maxsize = Option.none
    ∧ putAll (mkClosableQueue (some 0)) l
        = (⟨Option.none, l, false, [], 0⟩, List.replicate l.length PutOutcome.ok)
    ∧ Pipeline.chain_workers { q_out_prev := Option.none } n Option.none (some 0)
        = Except.ok ({ q_out_prev := some (mkClosableQueue (some 0)) }, Option.none,
            mkClosableQueue (some 0)) := by
  refine ⟨by decide, ?_, rfl⟩
  have h := putAll_unbounded l (mkClosableQueue (some 0)) rfl rfl (by decide)
  rw [h]
  simp [mkClosableQueue, mkQueueMaxsize]

/-- C4 counterexample: on a queue created with capacity 0, a blocking put
with no reader present returns immediately (it does not suspend until a
reader takes the item) and the buffer then holds the buffered item —
contradicting rendezvous behavior. -/
theorem C4_counterexample :
    (ClosableQueue.put (mkClosableQueue (some 0)) (PyVal.int 7)).2 = PutOutcome.ok
    ∧ (ClosableQueue.put (mkClosableQueue (some 0)) (PyVal.int 7)).1.state.queue = [PyVal.int 7]
    ∧ (mkClosableQueue (some 0)).maxsize = Option.none := by
  decide

/-- C6 (amended): workers built with the `worker()` decorator signal done
exactly once on exit, normal or abnormal (the try/finally in `worker_outer`);
`filterer`, by contrast, signals done only on a normal exit — when the
predicate raises no exception. -/
theorem C6_done_signals (h : ExcHandler) (dn : Bool)
    (f : PyVal → Except String PyVal) (cond : PyVal → Except String Bool)
    (l l2 : List PyVal) (hcond : ∀ x ∈ l2, ∃ b, cond x = Except.ok b) :
    (worker_outer h dn f l).doneSignals = 1 ∧ (filterer cond l2).doneSignals = 1 := by
  refine ⟨rfl, ?_⟩
  induction l2 with
  | nil => rfl
  | cons x xs ih =>
    obtain ⟨b, hb⟩ := hcond x (List.mem_cons_self _ _)
    have htail := ih (fun y hy => hcond y (List.mem_cons_of_mem _ hy))
    simp [filterer, hb, htail]

/-- Witness for C6 (amended) with a worker whose function raises and a
filterer whose predicate succeeds. -/
theorem C6_done_signals_witness :
    (worker_outer ExcHandler.raise_ false (fun _ => Except.error "boom") [PyVal.int 0]).doneSignals = 1
    ∧ (filterer (fun _ => Except.ok true) [PyVal.int 2]).doneSignals = 1 :=
  C6_done_signals ExcHandler.raise_ false (fun _ => Except.error "boom")
    (fun _ => Except.ok true) [PyVal.int 0] [PyVal.int 2]
    (fun _x _ => ⟨true, rfl⟩)

/-- C6 counterexample: `filterer` is a stage worker (used by
`Pipeline.filter`), but its loop is not wrapped in try/finally: when the
predicate raises on the first item, the worker exits abnormally with
**zero** done signals, so the stage's output queue is never closed. -/
theorem C6_counterexample :
    filterer (fun _ => Except.error "boom") [PyVal.int 0]
      = { outputs := [], doneSignals := 0, error := some "boom" } := by
  rfl

/-- If every stage-worker part is empty then no partial results are
emitted to the interim queue. -/
theorem map_foldG_flatten_nil {α : Type} (f : α → α → α) :
    ∀ (parts : List (List α)), parts.flatten = [] →
      (List.map (foldG f) parts).flatten = [] := by
  intro parts
  induction parts with
  | nil => intro h2; rfl
  | cons p ps ih =>
    intro hempty
    rw [List.flatten_cons] at hempty
    obtain ⟨hp, hps⟩ := List.append_eq_nil.mp hempty
    subst hp
    simp [foldG, ih hps]

/-- C7: `fold(f, x0, n_workers)` on an empty input returns `x0` (sole
item on the output queue, no algebraic conditions needed); and for
associative, commutative `f` with `x0` an identity, for every partition
of the input among the reducers and every arrival order of their partial
results, the output queue receives exactly the sequential left fold of
`f` over the input starting from `x0`. -/
theorem C7_fold_correct {α : Type} (f : α → α → α) (x0 : α) :
    (∀ (parts : List (List α)) (arrival : List α),
        parts.flatten = [] →
        List.Perm arrival (List.map (foldG f) parts).flatten →
        foldModel f x0 arrival = [x0])
    ∧ (∀ (input : List α) (parts : List (List α)) (arrival : List α),
        (∀ a b c, f (f a b) c = f a (f b c)) →
        (∀ a b, f a b = f b a) →
        (∀ a, f x0 a = a) →
        List.Perm parts.flatten input →
        List.Perm arrival (List.map (foldG f) parts).flatten →
        foldModel f x0 arrival = [List.foldl f x0 input]) := by
  constructor
  · intro parts arrival hempty hperm
    have hflat : (List.map (foldG f) parts).flatten = [] :=
      map_foldG_flatten_nil f parts hempty
    rw [hflat] at hperm
    have harr : arrival = [] :=
      List.eq_nil_of_length_eq_zero (by simpa using hperm.length_eq)
    subst harr
    rfl
  · intro input parts arrival hassoc hcomm _hid hpin harr
    have hrc : ∀ b a1 a2, f (f b a1) a2 = f (f b a2) a1 := by
      intro b a1 a2
      rw [hassoc, hassoc, hcomm a1 a2]
    have h1 : List.foldl f x0 arrival
        = List.foldl f x0 (List.map (foldG f) parts).flatten :=
      foldl_perm f hrc harr x0
    have h2 := foldl_flatten_foldG f hassoc parts x0
    have h3 : List.foldl f x0 parts.flatten = List.foldl f x0 input :=
      foldl_perm f hrc hpin x0
    show [List.foldl f x0 arrival] = [List.foldl f x0 input]
    rw [h1, h2, h3]

/-- Witness for C7: input `[1,2,3]` over ℕ addition, partitioned as
`[[2],[1,3]]`, partial results arriving as `[4,2]`. -/
theorem C7_fold_correct_witness :
    foldModel (fun a b : Nat => a + b) 0 [4, 2]
      = [List.foldl (fun a b : Nat => a + b) 0 [1, 2, 3]] :=
  (C7_fold_correct (fun a b : Nat => a + b) 0).2 [1, 2, 3] [[2], [1, 3]] [4, 2]
    (fun a b c => Nat.add_assoc a b c) (fun a b => Nat.add_comm a b)
    (fun a => Nat.zero_add a) (by decide) (by decide)

/-- C8 (amended): the tail queue reference is cleared on the *first
advance* of the pipeline's iterator (not when the iterator is obtained,
`__iter__` being a generator function); after that, advancing a new
iterator raises `RuntimeError`, but builder calls made after consumption
do not fail in the call itself: `chain_workers` returns normally, handing
the spawned workers a `None` input queue, so errors surface only later
inside the spawned greenlets. -/
theorem C8_tail_cleared_on_first_advance (p : Pipeline) (n : Nat) :
    (Pipeline.iterFirstAdvance p).1.q_out_prev = Option.none
    ∧ (Pipeline.iterFirstAdvance { q_out_prev := Option.none }).2
        = Except.error "Tried iterating over output, but the last output queue is None"
    ∧ Pipeline.chain_workers { q_out_prev := Option.none } n Option.none Option.none
        = Except.ok ({ q_out_prev := some (mkClosableQueue (some (2 * n))) }, Option.none,
            mkClosableQueue (some (2 * n))) := by
  refine ⟨?_, rfl, rfl⟩
  cases h : p.q_out_prev <;> simp [Pipeline.iterFirstAdvance, h]

/-- C8 counterexample: obtaining the iterator of a pipeline with a live
tail leaves the tail in place (it is only cleared on the first advance),
and a `chain_workers` call on a pipeline whose tail was consumed returns
successfully instead of failing with an error. -/
theorem C8_counterexample :
    (Pipeline.iterObtain { q_out_prev := some (mkClosableQueue Option.none) }).q_out_prev
      = some (mkClosableQueue Option.none)
    ∧ Pipeline.chain_workers { q_out_prev := Option.none } 1 Option.none Option.none
      = Except.ok ({ q_out_prev := some (mkClosableQueue (some 2)) }, Option.none,
          mkClosableQueue (some 2)) :=
  ⟨rfl, rfl⟩

/-- C9 (amended): with `discard_none=true`, exactly the successful
results equal to Python's `None` are withheld from the output queue and
every other result is enqueued — for the `raise_` and `ignore` handlers
the output equals the `discard_none=false` output with the `None` results
filtered out (inputs forwarded by the `forward_input` exception handler
bypass the `discard_none` check) — and the drop marker is distinct from
the EOS marker.  `None` is, however, an ordinary user-reachable value,
not a dedicated framework marker (see the counterexample). -/
theorem C9_discard_none_exact (h : ExcHandler) (f : PyVal → Except String PyVal)
    (l : List PyVal) (hne : h ≠ ExcHandler.forward_input) :
    (worker_inner h true f l).1
      = (worker_inner h false f l).1.filter (fun v => !decide (v = PyVal.none))
    ∧ PyVal.none ≠ PyVal.stopIteration := by
  refine ⟨?_, by decide⟩
  induction l with
  | nil => rfl
  | cons x xs ih =>
    cases hfx : f x with
    | error e =>
      cases h with
      | raise_ => simp [worker_inner, hfx]
      | ignore =>
        simp only [worker_inner, hfx]
        exact ih
      | forward_input => exact absurd rfl hne
    | ok out =>
      by_cases ho : out = PyVal.none
      · subst ho
        simp [worker_inner, hfx, ih]
      · simp [worker_inner, hfx, ho, ih]

/-- Witness for C9 (amended): identity worker over `[None, 3]` with the
`raise_` handler. -/
theorem C9_discard_none_exact_witness :
    (worker_inner ExcHandler.raise_ true (fun v => Except.ok v) [PyVal.none, PyVal.int 3]).1
      = (worker_inner ExcHandler.raise_ false (fun v => Except.ok v)
          [PyVal.none, PyVal.int 3]).1.filter (fun v => !decide (v = PyVal.none))
    ∧ PyVal.none ≠ PyVal.stopIteration :=
  C9_discard_none_exact ExcHandler.raise_ (fun v => Except.ok v)
    [PyVal.none, PyVal.int 3] (by decide)

/-- C9 counterexample: the drop marker is Python's `None`, an ordinary
user-reachable value: the identity worker forwards the user item `None`
when `discard_none` is false (and `put` accepts `None`), yet withholds
that same ordinary result when `discard_none` is true — the marker is not
a distinct framework-defined value outside the user's reach. -/
theorem C9_counterexample :
    (worker_inner ExcHandler.raise_ true (fun v => Except.ok v) [PyVal.none]).1 = []
    ∧ (worker_inner ExcHandler.raise_ false (fun v => Except.ok v) [PyVal.none]).1 = [PyVal.none]
    ∧ (ClosableQueue.put (mkClosableQueue Option.none) PyVal.none).2 = PutOutcome.ok := by
  decide

/-- C10: obtaining the iterator of a pipeline neither raises nor clears
the tail (the body of the generator has not run); the first advance
always clears the tail, and when the tail was absent — a fresh
`Pipeline()` or an already-consumed pipeline — the first advance raises
`RuntimeError`. -/
theorem C10_iter_generator_semantics (p : Pipeline) :
    Pipeline.iterObtain p = p
    ∧ (Pipeline.iterFirstAdvance p).1.q_out_prev = Option.none
    ∧ (p.q_out_prev = Option.none →
        (Pipeline.iterFirstAdvance p).2
          = Except.error "Tried iterating over output, but the last output queue is None") := by
  refine ⟨rfl, ?_, ?_⟩
  · cases h : p.q_out_prev <;> simp [Pipeline.iterFirstAdvance, h]
  · intro h
    simp [Pipeline.iterFirstAdvance, h]

/-- Witness for C10 at a fresh pipeline with no input queue. -/
theorem C10_iter_generator_semantics_witness :
    Pipeline.iterObtain { q_out_prev := Option.none } = ({ q_out_prev := Option.none } : Pipeline)
    ∧ (Pipeline.iterFirstAdvance { q_out_prev := Option.none }).1.q_out_prev = Option.none
    ∧ (Pipeline.iterFirstAdvance { q_out_prev := Option.none }).2
        = Except.error "Tried iterating over output, but the last output queue is None" := by
  have h := C10_iter_generator_semantics { q_out_prev := Option.none }
  exact ⟨h.1, h.2.1, h.2.2 rfl⟩
